import Mathlib

/-!
Verification of the terraform-ls lifecycle manager of the vscode-terraform
extension: a shallow embedding of `languageServerInstaller.ts` (the
`LanguageServerInstaller` class, `getLsVersion`, `goOs`, `goArch`),
`showReferences.ts` (`ShowReferencesFeature`) and `languageclient.ts`
(`ExperimentalLanguageClient.stopIfRunning`), with theorems about the
upgrade-decision, probing, platform-mapping, install and cleanup logic.

Asynchronous effects (network, file system, subprocess, user prompts) are
embedded by passing their outcomes in explicit environment records; thrown
JavaScript exceptions become `Except` errors; the sequence of user-visible
prompts and editor actions is returned as an explicit trace list.
-/

/-- A release/installed semantic version `major.minor.patch`.  Prerelease
tags are not used by the installer's release stream and are omitted. -/
structure Version where
  major : Nat
  minor : Nat
  patch : Nat
deriving DecidableEq, Repr

/-- Rendering of a version used inside prompt messages and artifact names
(the TypeScript code interpolates the version string directly). -/
def versionString (v : Version) : String :=
  toString v.major ++ "." ++ toString v.minor ++ "." ++ toString v.patch

/-- `semver.eq(a, b)`: version equality. -/
def semverEqb (a b : Version) : Bool :=
  decide (a = b)

/-- `semver.gt(a, b)`: strict lexicographic order on (major, minor, patch). -/
def semverGt (a b : Version) : Bool :=
  decide (b.major < a.major ∨ (b.major = a.major ∧
    (b.minor < a.minor ∨ (b.minor = a.minor ∧ b.patch < a.patch))))

/-- A JavaScript exception value as the installer code observes it:
`code` is the Node.js error code (`err.code`, e.g. `'ENOENT'`, `'EACCES'`;
`none` when the property is absent), `status` is the subprocess exit status
carried by an exec failure (`err.status`; `none` when absent, as for a
`JSON.parse` failure), and `fromUnsupportedFlag` is a ghost label — never
inspected by the embedded code — recording whether the failure was caused
by the binary not recognising the requested flag.  The ghost label lets the
specification's distinction "attributable to an unsupported flag" be stated
even though the code has no access to it. -/
structure JsErr where
  code : Option String
  status : Option Int
  fromUnsupportedFlag : Bool
deriving DecidableEq, Repr

/-- JavaScript loose inequality `err.status != 0`: `undefined != 0` and
`null != 0` are both true; only an actual numeric `0` compares equal. -/
def jsLooseNeZero : Option Int → Bool
  | some 0 => false
  | some _ => true
  | none => true

/-- Environment for one run of `getLsVersion(dirPath)`:
whether the binary file exists at `lsBinPath(dirPath)` and whether it is
executable (probed by `fs.accessSync(binPath, fs.constants.X_OK)`);
`jsonAttempt` is the outcome of `exec(binPath + " version -json")` followed
by `JSON.parse(stdout).version` (an exec failure carries the exit status,
a parse failure carries no status); `plainAttempt` is the outcome of the
legacy `exec(binPath + " -version")` with the version taken from stdout,
or from stderr when stdout is empty. -/
structure ProbeEnv where
  binPresent : Bool
  binExecutable : Bool
  jsonAttempt : Except JsErr Version
  plainAttempt : Except JsErr Version

/-- The error thrown by `fs.accessSync(binPath, fs.constants.X_OK)`:
`ENOENT` when the file is absent, `EACCES` when it exists but is not
executable; no error when it is executable. -/
def accessCheck (env : ProbeEnv) : Option JsErr :=
  if !env.binPresent then some ⟨some "ENOENT", none, false⟩
  else if !env.binExecutable then some ⟨some "EACCES", none, false⟩
  else none

/-- `getLsVersion(dirPath)` from `languageServerInstaller.ts`:
check the binary with `fs.accessSync(binPath, X_OK)` (its exception
propagates), then try `binPath version -json`; on any failure with
`err.status != 0` fall back to the legacy `binPath -version` invocation,
otherwise re-throw the failure. -/
def getLsVersion (env : ProbeEnv) : Except JsErr Version :=
  match accessCheck env with
  | some e => .error e
  | none =>
    match env.jsonAttempt with
    | .ok v => .ok v
    | .error err =>
      if jsLooseNeZero err.status then
        env.plainAttempt
      else
        .error err

/-- A resolved release: the installer only reads its `version` (build
lookup is modelled separately in `InstallEnv`). -/
structure Release where
  version : Version
deriving DecidableEq, Repr

/-- The upgrade prompt: `A new language server release is available:
${version}. Install now?` with choices Install/Cancel. -/
def upgradeMsg (v : Version) : String :=
  "A new language server release is available: " ++ versionString v ++ ". Install now?"

/-- The downgrade prompt: `An older language server release is available:
${version}. Install now?` with choices Install/Cancel. -/
def downgradeMsg (v : Version) : String :=
  "An older language server release is available: " ++ versionString v ++ ". Install now?"

/-- Outcome of `needsInstall`: either a thrown exception or a returned
boolean. -/
inductive NIOutcome where
  | thrown (e : JsErr)
  | returned (b : Bool)
deriving DecidableEq, Repr

/-- Environment for one run of `needsInstall(requiredVersion)`:
the outcome of `getRelease("terraform-ls", versionString, userAgent)`,
the file-system/subprocess environment seen by `getLsVersion`, and the
user's answer to whichever information message is shown (`none` models a
dismissed dialog). -/
structure NIEnv where
  getReleaseResult : Except JsErr Release
  probe : ProbeEnv
  promptAnswer : String → Option String

/-- `LanguageServerInstaller.needsInstall` from `languageServerInstaller.ts`,
returning its outcome together with the list of prompt messages shown:
a release-resolution failure is absorbed (return false); a probe failure is
absorbed as "fresh install" (return true) exactly when `err.code` is
`'ENOENT'` and re-thrown otherwise; equal versions return false silently;
a greater target shows the upgrade prompt and a lesser target the downgrade
prompt, each returning true exactly on the answer `"Install"`. -/
def needsInstall (env : NIEnv) : NIOutcome × List String :=
  match env.getReleaseResult with
  | .error _ => (.returned false, [])
  | .ok release =>
    match getLsVersion env.probe with
    | .error err =>
      if err.code ≠ some "ENOENT" then (.thrown err, [])
      else (.returned true, [])
    | .ok installedVersion =>
      if semverEqb release.version installedVersion then
        (.returned false, [])
      else if semverGt release.version installedVersion then
        let msg := upgradeMsg release.version
        (.returned (decide (env.promptAnswer msg = some "Install")), [msg])
      else
        let msg := downgradeMsg release.version
        (.returned (decide (env.promptAnswer msg = some "Install")), [msg])

/-- `goOs()` from `languageServerInstaller.ts`, parameterised by the raw
`process.platform` string: `win32 ↦ windows`, `sunos ↦ solaris`, everything
else passes through unchanged. -/
def goOs (platform : String) : String :=
  if platform = "win32" then "windows"
  else if platform = "sunos" then "solaris"
  else platform

/-- `goArch()` from `languageServerInstaller.ts`, parameterised by the raw
`process.platform` and `process.arch` strings: `ia32 ↦ 386`, `x64 ↦ amd64`,
`arm64` on `darwin` ↦ `amd64` (Rosetta 2 fallback), everything else passes
through unchanged.  The darwin test reads the raw platform, as the source
does. -/
def goArch (platform arch : String) : String :=
  if arch = "ia32" then "386"
  else if arch = "x64" then "amd64"
  else if arch = "arm64" && platform = "darwin" then "amd64"
  else arch

/-- One build descriptor of a release, as returned by
`release.getBuild(os, arch)`. -/
structure Build where
  url : String
  filename : String
deriving DecidableEq, Repr

/-- Environment for one run of `installPkg`: the result of
`release.getBuild(goOs(), goArch())` and whether each asynchronous phase
(`release.download`, `release.verify`, `release.unpack`) succeeds. -/
structure InstallEnv where
  getBuild : Option Build
  downloadOk : Bool
  verifyOk : Bool
  unpackOk : Bool

/-- The distinct failure points of `installPkg`. -/
inductive InstallErr where
  | noMatchingBuild
  | downloadFailed
  | verificationError
  | unpackFailed
deriving DecidableEq, Repr

/-- The observable state of the install directory: the version reported by
the active binary at `lsBinPath(directory)` (`none` when that file is
absent) and the set of artifact files in the directory, by name. -/
structure DirState where
  binary : Option Version
  zips : List String
deriving DecidableEq, Repr

/-- The versioned artifact name `terraform-ls_v${release.version}.zip`
used as the download destination. -/
def destinationName (v : Version) : String :=
  "terraform-ls_v" ++ versionString v ++ ".zip"

/-- `LanguageServerInstaller.installPkg(release)` from
`languageServerInstaller.ts` as a transition on the install directory:
resolve the build (throw if none matches); best-effort delete the previous
binary (`removeOldBinary`, its `unlinkSync` failure on a missing file is
swallowed); then download the artifact to the versioned destination, verify
its checksum, and unpack it over the binary path — each phase aborting the
run with its own error, leaving the directory as it stood.  Only a
successful unpack writes the new binary. -/
def installPkg (env : InstallEnv) (release : Release) (st : DirState) :
    Except InstallErr Unit × DirState :=
  match env.getBuild with
  | none => (.error .noMatchingBuild, st)
  | some _build =>
    let st1 : DirState := ⟨none, st.zips⟩
    if !env.downloadOk then (.error .downloadFailed, st1)
    else
      let st2 : DirState := ⟨none, destinationName release.version :: st.zips⟩
      if !env.verifyOk then (.error .verificationError, st2)
      else if !env.unpackOk then (.error .unpackFailed, st2)
      else (.ok (), ⟨some release.version, st2.zips⟩)

/-- Probing the install directory after an install attempt, as
`getLsVersion` sees it: an absent binary fails with `ENOENT`
(the `NotInstalled` condition); a present binary reports its version. -/
def probeInstalled (st : DirState) : Except JsErr Version :=
  match st.binary with
  | none => .error ⟨some "ENOENT", none, false⟩
  | some v => .ok v

/-- The `del` glob `terraform-ls*.zip` used by `cleanupZips`, applied to a
file name in the install directory: prefix `terraform-ls`, suffix `.zip`,
with `*` matching any (possibly empty) run of characters. -/
def matchesZipGlob (name : String) : Bool :=
  "terraform-ls".data.isPrefixOf name.data &&
  ".zip".data.isSuffixOf name.data &&
  decide ("terraform-ls.zip".length ≤ name.length)

/-- The naming pattern `terraform-ls_v<version>.zip` of the artifacts the
installer itself downloads (see `destinationName`); the claim about
`cleanupZips` is stated against this pattern, so it is defined here for
comparison with the broader glob the code uses. -/
def matchesVersionedZipName (name : String) : Bool :=
  "terraform-ls_v".data.isPrefixOf name.data &&
  ".zip".data.isSuffixOf name.data &&
  decide ("terraform-ls_v".length + ".zip".length ≤ name.length)

/-- `LanguageServerInstaller.cleanupZips()` from `languageServerInstaller.ts`:
`del(directory + "/terraform-ls*.zip", force)` deletes every file of the
directory matching the glob and returns the deleted paths.  The result is
(removed names, remaining directory contents). -/
def cleanupZips (files : List String) : List String × List String :=
  (files.filter matchesZipGlob, files.filter (fun f => !matchesZipGlob f))

/-- A text document, identified by its URI, as seen through
`vscode.window.activeTextEditor.document`. -/
structure TextDoc where
  uri : String
deriving DecidableEq, Repr

/-- A zero-based line/character position (`vscode.Position`). -/
structure SrvPosition where
  line : Nat
  character : Nat
deriving DecidableEq, Repr

/-- The reference context `{includeDeclaration: boolean}` passed to the
bridge command and forwarded to the references provider. -/
structure RefContext where
  includeDeclaration : Bool
deriving DecidableEq, Repr

/-- A location returned by the references provider. -/
structure RefLocation where
  uri : String
  line : Nat
  character : Nat
deriving DecidableEq, Repr

/-- The observable actions of the bridge command, in order: one delegation
to the client's references provider (`provider.provideReferences`) and one
invocation of the built-in `editor.action.showReferences` command. -/
inductive RefEvent where
  | provideReferences (docUri : String) (pos : SrvPosition) (ctx : RefContext)
  | showReferences (uri : String) (pos : SrvPosition) (locs : List RefLocation)
deriving DecidableEq, Repr

/-- The fixed bridge-command identifier `client.showReferences`. -/
def showReferencesCommandId : String := "client.showReferences"

/-- Environment for one invocation of the bridge command: the currently
active editor document and the behaviour of the references provider that
the underlying client registered for it. -/
structure RefEnv where
  activeDoc : TextDoc
  references : TextDoc → SrvPosition → RefContext → List RefLocation

/-- The handler registered by `ShowReferencesFeature.initialize` in
`showReferences.ts`: read the active document, rebuild the position and
context, await `provider.provideReferences(doc, position, context, token)`,
then run `editor.action.showReferences` with the document URI, the
position, and the returned locations.  The result is the ordered trace of
the two actions. -/
def showRefsHandler (env : RefEnv) (pos : SrvPosition) (refCtx : RefContext) :
    List RefEvent :=
  let doc := env.activeDoc
  let position : SrvPosition := ⟨pos.line, pos.character⟩
  let context : RefContext := ⟨refCtx.includeDeclaration⟩
  let locations := env.references doc position context
  [RefEvent.provideReferences doc.uri position context,
   RefEvent.showReferences doc.uri position locations]

/-- The slice of the server's advertised capabilities the feature reads:
whether `capabilities.experimental?.referenceCountCodeLens` is present and
truthy. -/
structure ServerCaps where
  referenceCountCodeLens : Bool
deriving DecidableEq, Repr

/-- `ShowReferencesFeature.initialize` from `showReferences.ts` (named
`init` here because `initialize` is reserved in this development): when the
experimental `referenceCountCodeLens` capability is absent it returns with
no registration; otherwise it registers exactly the bridge command
`client.showReferences` with the handler above.  The result is the list of
(command id, handler) registrations performed. -/
def ShowReferencesFeature.init (caps : ServerCaps) :
    List (String × (RefEnv → SrvPosition → RefContext → List RefEvent)) :=
  if !caps.referenceCountCodeLens then []
  else [(showReferencesCommandId, showRefsHandler)]

/-- The language-client handle that `stopIfRunning` operates on:
the process identifier read from the private `_serverProcess` property,
and the outcomes of `langClient.stop()` and `process.kill(PID, 9)`
(each may fail; both failures are swallowed by the source). -/
structure LangClient where
  serverProcessPid : Nat
  stopResult : Except JsErr Unit
  killResult : Except JsErr Unit

/-- The observable termination actions of `stopIfRunning`, in order. -/
inductive StopEvent where
  | gracefulStop
  | forceKill (pid : Nat)
deriving DecidableEq, Repr

/-- `ExperimentalLanguageClient.stopIfRunning` from `languageclient.ts`:
if the static client is null, return leaving `isRunning` untouched;
otherwise attempt `langClient.stop()` inside a try/catch that swallows any
failure, then attempt `process.kill(PID, 9)` inside a second try/catch that
swallows any failure, and only then set `isRunning` to false.  Every
fallible operation is caught, so the function itself never throws: the
result is wrapped in `Except` to state exactly that, and carries the new
`isRunning` flag with the ordered trace of attempts. -/
def stopIfRunning (client : Option LangClient) (isRunning : Bool) :
    Except JsErr (Bool × List StopEvent) :=
  match client with
  | none => .ok (isRunning, [])
  | some c =>
    let _ : Unit := match c.stopResult with
      | .ok _ => ()
      | .error _ => ()
    let _ : Unit := match c.killResult with
      | .ok _ => ()
      | .error _ => ()
    .ok (false, [StopEvent.gracefulStop, StopEvent.forceKill c.serverProcessPid])

/-- Strict semver order is irreflexive-by-inequality: a strictly greater
version is a different version. -/
theorem semverGt_ne (a b : Version) (h : semverGt a b = true) : a ≠ b := by
  rcases a with ⟨a1, a2, a3⟩
  rcases b with ⟨b1, b2, b3⟩
  simp only [semverGt, decide_eq_true_eq] at h
  simp only [ne_eq, Version.mk.injEq, not_and]
  omega

/-- Strict semver order is asymmetric. -/
theorem semverGt_asymm (a b : Version) (h : semverGt a b = true) :
    semverGt b a = false := by
  rcases a with ⟨a1, a2, a3⟩
  rcases b with ⟨b1, b2, b3⟩
  simp only [semverGt, decide_eq_true_eq] at h
  simp only [semverGt, decide_eq_false_iff_not]
  omega

/-- The upgrade and downgrade prompts have different wording for every
version: their leading phrases have different lengths. -/
theorem upgradeMsg_ne_downgradeMsg (v : Version) : upgradeMsg v ≠ downgradeMsg v := by
  intro h
  have hl := congrArg String.length h
  rw [upgradeMsg, downgradeMsg, String.length_append, String.length_append,
    String.length_append, String.length_append] at hl
  have h1 : ("A new language server release is available: ").length = 44 := rfl
  have h2 : ("An older language server release is available: ").length = 47 := rfl
  rw [h1, h2] at hl
  omega

/-- C1: with installed version `A` and resolved target `B`, `needsInstall`
returns false with no prompt when `A = B`; when `B` is greater it shows the
upgrade prompt and returns true exactly when the user answers `"Install"`;
when `B` is lesser it shows the downgrade prompt — worded differently from
the upgrade prompt — and returns true exactly when the user answers
`"Install"`. -/
theorem needsInstall_three_way (A B : Version) (probe : ProbeEnv)
    (prompt : String → Option String)
    (hprobe : getLsVersion probe = .ok A) :
    (A = B → needsInstall ⟨.ok ⟨B⟩, probe, prompt⟩ = (.returned false, [])) ∧
    (semverGt B A = true →
      needsInstall ⟨.ok ⟨B⟩, probe, prompt⟩ =
        (.returned (decide (prompt (upgradeMsg B) = some "Install")), [upgradeMsg B])) ∧
    (semverGt A B = true →
      needsInstall ⟨.ok ⟨B⟩, probe, prompt⟩ =
        (.returned (decide (prompt (downgradeMsg B) = some "Install")), [downgradeMsg B])) ∧
    upgradeMsg B ≠ downgradeMsg B := by
  refine ⟨?_, ?_, ?_, upgradeMsg_ne_downgradeMsg B⟩
  · intro hAB
    subst hAB
    simp [needsInstall, hprobe, semverEqb]
  · intro hgt
    have hne : B ≠ A := semverGt_ne B A hgt
    simp [needsInstall, hprobe, semverEqb, hne, hgt]
  · intro hgt
    have hne : B ≠ A := Ne.symm (semverGt_ne A B hgt)
    have hng : semverGt B A = false := semverGt_asymm A B hgt
    simp [needsInstall, hprobe, semverEqb, hne, hng]

/-- Witness for C1: installed 0.20.0, target 0.21.0, user answers Install:
the upgrade prompt is shown and the result is true. -/
theorem needsInstall_three_way_witness :
    needsInstall ⟨.ok ⟨⟨0, 21, 0⟩⟩, ⟨true, true, .ok ⟨0, 20, 0⟩, .ok ⟨0, 20, 0⟩⟩,
        fun _ => some "Install"⟩ =
      (.returned true, [upgradeMsg ⟨0, 21, 0⟩]) := by
  have h := (needsInstall_three_way ⟨0, 20, 0⟩ ⟨0, 21, 0⟩
    ⟨true, true, .ok ⟨0, 20, 0⟩, .ok ⟨0, 20, 0⟩⟩ (fun _ => some "Install") rfl).2.1
    (by decide)
  simpa using h

/-- C2: `needsInstall` absorbs the two expected failures and propagates all
others: a release-resolution failure yields false without throwing; a probe
failure with code `ENOENT` (not installed) yields true with no prompt; any
other probe failure is re-thrown. -/
theorem needsInstall_error_policy (env : NIEnv) :
    (∀ e, env.getReleaseResult = .error e → needsInstall env = (.returned false, [])) ∧
    (∀ r err, env.getReleaseResult = .ok r → getLsVersion env.probe = .error err →
      ((err.code = some "ENOENT" → needsInstall env = (.returned true, [])) ∧
       (err.code ≠ some "ENOENT" → needsInstall env = (.thrown err, [])))) := by
  rcases env with ⟨grr, probe, prompt⟩
  refine ⟨?_, ?_⟩
  · intro e he
    simp only at he
    simp [needsInstall, he]
  · intro r err hr herr
    simp only at hr herr
    constructor
    · intro hcode
      simp [needsInstall, hr, herr, hcode]
    · intro hcode
      simp [needsInstall, hr, herr, hcode]

/-- Witness for C2: a release-resolution failure yields false, and an
`EACCES` probe failure is re-thrown. -/
theorem needsInstall_error_policy_witness :
    needsInstall ⟨.error ⟨none, none, false⟩,
        ⟨true, true, .ok ⟨0, 20, 0⟩, .ok ⟨0, 20, 0⟩⟩, fun _ => none⟩ =
      (.returned false, []) ∧
    needsInstall ⟨.ok ⟨⟨0, 21, 0⟩⟩,
        ⟨true, false, .ok ⟨0, 20, 0⟩, .ok ⟨0, 20, 0⟩⟩, fun _ => none⟩ =
      (.thrown ⟨some "EACCES", none, false⟩, []) := by
  constructor
  · exact (needsInstall_error_policy _).1 ⟨none, none, false⟩ rfl
  · exact ((needsInstall_error_policy ⟨.ok ⟨⟨0, 21, 0⟩⟩,
      ⟨true, false, .ok ⟨0, 20, 0⟩, .ok ⟨0, 20, 0⟩⟩, fun _ => none⟩).2
      ⟨⟨0, 21, 0⟩⟩ ⟨some "EACCES", none, false⟩ rfl rfl).2 (by decide)

/-- Counterexample for C3: a present but not executable binary makes
`fs.accessSync` throw `EACCES`, which `needsInstall` re-throws as fatal —
it is not classified as the absorbed not-installed (fresh-install) path
returning true. -/
theorem probe_not_executable_fatal_cex :
    getLsVersion ⟨true, false, .ok ⟨0, 20, 0⟩, .ok ⟨0, 20, 0⟩⟩ =
      .error ⟨some "EACCES", none, false⟩ ∧
    needsInstall ⟨.ok ⟨⟨0, 21, 0⟩⟩, ⟨true, false, .ok ⟨0, 20, 0⟩, .ok ⟨0, 20, 0⟩⟩,
        fun _ => none⟩ =
      (.thrown ⟨some "EACCES", none, false⟩, []) ∧
    (NIOutcome.thrown ⟨some "EACCES", none, false⟩, ([] : List String)) ≠
      (NIOutcome.returned true, []) := by
  exact ⟨rfl, rfl, by decide⟩

/-- C3 as amended: the absorbed `NotInstalled` condition (error code
`ENOENT`, leading `needsInstall` to return true with no prompt) holds
exactly when the binary is absent; a present-but-not-executable binary
fails with `EACCES`, which `needsInstall` re-throws as fatal. -/
theorem probe_enoent_vs_eacces (bp be : Bool) (ja pa : Except JsErr Version)
    (rel : Release) (prompt : String → Option String) :
    (bp = false →
      getLsVersion ⟨bp, be, ja, pa⟩ = .error ⟨some "ENOENT", none, false⟩ ∧
      needsInstall ⟨.ok rel, ⟨bp, be, ja, pa⟩, prompt⟩ = (.returned true, [])) ∧
    (bp = true → be = false →
      getLsVersion ⟨bp, be, ja, pa⟩ = .error ⟨some "EACCES", none, false⟩ ∧
      needsInstall ⟨.ok rel, ⟨bp, be, ja, pa⟩, prompt⟩ =
        (.thrown ⟨some "EACCES", none, false⟩, [])) := by
  constructor
  · intro hbp
    subst hbp
    exact ⟨rfl, by simp [needsInstall, getLsVersion, accessCheck]⟩
  · intro hbp hbe
    subst hbp
    subst hbe
    exact ⟨rfl, by simp [needsInstall, getLsVersion, accessCheck]⟩

/-- Witness for the amended C3: an absent binary probes as `ENOENT` and
`needsInstall` takes the fresh-install path. -/
theorem probe_enoent_vs_eacces_witness :
    getLsVersion ⟨false, true, .ok ⟨0, 20, 0⟩, .ok ⟨0, 20, 0⟩⟩ =
      .error ⟨some "ENOENT", none, false⟩ ∧
    needsInstall ⟨.ok ⟨⟨0, 21, 0⟩⟩, ⟨false, true, .ok ⟨0, 20, 0⟩, .ok ⟨0, 20, 0⟩⟩,
        fun _ => none⟩ =
      (.returned true, []) :=
  (probe_enoent_vs_eacces false true (.ok ⟨0, 20, 0⟩) (.ok ⟨0, 20, 0⟩)
    ⟨⟨0, 21, 0⟩⟩ (fun _ => none)).1 rfl

/-- C4: the platform mapping has exactly the special cases
`win32 ↦ windows`, `sunos ↦ solaris`, `ia32 ↦ 386`, `x64 ↦ amd64` and
`arm64`-on-`darwin` ↦ `amd64`; every other input passes through verbatim
(totality — hence no error path — is immediate from the types). -/
theorem platform_mapping_cases (os arch : String) :
    goOs "win32" = "windows" ∧
    goOs "sunos" = "solaris" ∧
    (os ≠ "win32" → os ≠ "sunos" → goOs os = os) ∧
    goArch os "ia32" = "386" ∧
    goArch os "x64" = "amd64" ∧
    goArch "darwin" "arm64" = "amd64" ∧
    (arch ≠ "ia32" → arch ≠ "x64" → ¬(arch = "arm64" ∧ os = "darwin") →
      goArch os arch = arch) := by
  refine ⟨rfl, rfl, ?_, rfl, rfl, rfl, ?_⟩
  · intro h1 h2
    simp [goOs, h1, h2]
  · intro h1 h2 h3
    simp only [goArch, if_neg h1, if_neg h2]
    rw [if_neg]
    simp only [Bool.and_eq_true, decide_eq_true_eq]
    exact h3

/-- Witness for C4: `linux`/`arm` is outside every special case and passes
through unchanged. -/
theorem platform_mapping_cases_witness :
    goOs "linux" = "linux" ∧ goArch "linux" "arm" = "arm" := by
  constructor
  · exact (platform_mapping_cases "linux" "arm").2.2.1 (by decide) (by decide)
  · exact (platform_mapping_cases "linux" "arm").2.2.2.2.2.2
      (by decide) (by decide) (by decide)

/-- Counterexample for C5: a structured-invocation failure with exit
status 1 that is not attributable to an unsupported flag (ghost label
false) does not propagate as fatal: `getLsVersion` still falls back to the
legacy invocation and succeeds. -/
theorem getLsVersion_fallback_cex :
    (JsErr.mk none (some 1) false).fromUnsupportedFlag = false ∧
    (JsErr.mk none (some 1) false).status = some 1 ∧
    getLsVersion ⟨true, true, .error ⟨none, some 1, false⟩, .ok ⟨0, 20, 0⟩⟩ =
      .ok ⟨0, 20, 0⟩ ∧
    getLsVersion ⟨true, true, .error ⟨none, some 1, false⟩, .ok ⟨0, 20, 0⟩⟩ ≠
      .error ⟨none, some 1, false⟩ := by
  refine ⟨rfl, rfl, rfl, ?_⟩
  intro h
  exact Except.noConfusion h

/-- C5 as amended: the prober consults the structured (JSON) invocation
first and returns its result when it succeeds; when it fails, the legacy
plain-text fallback is taken whenever the failure's exit status is not
(loosely) zero — regardless of whether the failure came from an unsupported
flag, and including failures carrying no status at all — and only a failure
with status exactly 0 is re-thrown. -/
theorem getLsVersion_fallback_policy (ja pa : Except JsErr Version) (e : JsErr) :
    (∀ v, ja = .ok v → getLsVersion ⟨true, true, ja, pa⟩ = .ok v) ∧
    (ja = .error e → jsLooseNeZero e.status = true →
      getLsVersion ⟨true, true, ja, pa⟩ = pa) ∧
    (ja = .error e → e.status = some 0 →
      getLsVersion ⟨true, true, ja, pa⟩ = .error e) := by
  refine ⟨?_, ?_, ?_⟩
  · intro v hv
    subst hv
    rfl
  · intro he hs
    subst he
    simp [getLsVersion, accessCheck, hs]
  · intro he hs
    subst he
    simp [getLsVersion, accessCheck, jsLooseNeZero, hs]

/-- Witness for the amended C5: a status-1 failure with no flag available
falls back to the plain invocation; a status-0 failure is re-thrown. -/
theorem getLsVersion_fallback_policy_witness :
    getLsVersion ⟨true, true, .error ⟨none, some 1, false⟩, .ok ⟨0, 19, 0⟩⟩ =
      .ok ⟨0, 19, 0⟩ ∧
    getLsVersion ⟨true, true, .error ⟨none, some 0, false⟩, .ok ⟨0, 19, 0⟩⟩ =
      .error ⟨none, some 0, false⟩ := by
  constructor
  · exact (getLsVersion_fallback_policy (.error ⟨none, some 1, false⟩)
      (.ok ⟨0, 19, 0⟩) ⟨none, some 1, false⟩).2.1 rfl (by decide)
  · exact (getLsVersion_fallback_policy (.error ⟨none, some 0, false⟩)
      (.ok ⟨0, 19, 0⟩) ⟨none, some 0, false⟩).2.2 rfl rfl

/-- C6: when checksum verification fails, `installPkg` aborts with the
verification error and the binary path holds no binary at all — in
particular not the newly downloaded version — so probing afterwards
reports the not-installed condition. -/
theorem installPkg_verify_failure_no_binary (env : InstallEnv) (release : Release)
    (st : DirState) (b : Build)
    (hb : env.getBuild = some b) (hd : env.downloadOk = true)
    (hv : env.verifyOk = false) :
    installPkg env release st =
      (.error .verificationError, ⟨none, destinationName release.version :: st.zips⟩) ∧
    (installPkg env release st).2.binary ≠ some release.version ∧
    probeInstalled (installPkg env release st).2 =
      .error ⟨some "ENOENT", none, false⟩ := by
  rcases env with ⟨gb, dl, vf, up⟩
  simp only at hb hd hv
  subst hb
  subst hd
  subst hv
  refine ⟨rfl, ?_, rfl⟩
  simp [installPkg, probeInstalled]

/-- Witness for C6: a concrete failed verification leaves no binary and
probing reports not-installed. -/
theorem installPkg_verify_failure_no_binary_witness :
    installPkg ⟨some ⟨"url", "file"⟩, true, false, true⟩ ⟨⟨0, 21, 0⟩⟩
        ⟨some ⟨0, 20, 0⟩, []⟩ =
      (.error .verificationError, ⟨none, [destinationName ⟨0, 21, 0⟩]⟩) := by
  exact (installPkg_verify_failure_no_binary ⟨some ⟨"url", "file"⟩, true, false, true⟩
    ⟨⟨0, 21, 0⟩⟩ ⟨some ⟨0, 20, 0⟩, []⟩ ⟨"url", "file"⟩ rfl rfl rfl).1

/-- C10: once a matching build is resolved, the previous binary is deleted
before the download begins, so every failing run of `installPkg` — at
download, verification or unpack — ends with no binary installed and a
subsequent probe reports not-installed; the prior version never survives
a failed attempt. -/
theorem installPkg_failure_not_installed (env : InstallEnv) (release : Release)
    (st : DirState) (b : Build)
    (hb : env.getBuild = some b)
    (hfail : env.downloadOk = false ∨ env.verifyOk = false ∨ env.unpackOk = false) :
    (∃ e, (installPkg env release st).1 = .error e) ∧
    (installPkg env release st).2.binary = none ∧
    probeInstalled (installPkg env release st).2 =
      .error ⟨some "ENOENT", none, false⟩ := by
  rcases env with ⟨gb, dl, vf, up⟩
  simp only at hb hfail
  subst hb
  rcases hfail with h | h | h
  · subst h
    exact ⟨⟨.downloadFailed, rfl⟩, rfl, rfl⟩
  · subst h
    cases dl
    · exact ⟨⟨.downloadFailed, rfl⟩, rfl, rfl⟩
    · exact ⟨⟨.verificationError, rfl⟩, rfl, rfl⟩
  · subst h
    cases dl
    · exact ⟨⟨.downloadFailed, rfl⟩, rfl, rfl⟩
    · cases vf
      · exact ⟨⟨.verificationError, rfl⟩, rfl, rfl⟩
      · exact ⟨⟨.unpackFailed, rfl⟩, rfl, rfl⟩

/-- Witness for C10: a failed unpack over a previously installed 0.20.0
leaves the directory with no binary. -/
theorem installPkg_failure_not_installed_witness :
    (installPkg ⟨some ⟨"url", "file"⟩, true, true, false⟩ ⟨⟨0, 21, 0⟩⟩
      ⟨some ⟨0, 20, 0⟩, []⟩).2.binary = none :=
  (installPkg_failure_not_installed ⟨some ⟨"url", "file"⟩, true, true, false⟩
    ⟨⟨0, 21, 0⟩⟩ ⟨some ⟨0, 20, 0⟩, []⟩ ⟨"url", "file"⟩ rfl (Or.inr (Or.inr rfl))).2.1

/-- Every name of the versioned form `terraform-ls_v<version>.zip` also
matches the broader glob `terraform-ls*.zip` used by the code. -/
theorem zipGlob_of_versioned (f : String) (h : matchesVersionedZipName f = true) :
    matchesZipGlob f = true := by
  simp only [matchesVersionedZipName, Bool.and_eq_true, decide_eq_true_eq] at h
  obtain ⟨⟨h1, h2⟩, h3⟩ := h
  simp only [matchesZipGlob, Bool.and_eq_true, decide_eq_true_eq]
  refine ⟨⟨?_, h2⟩, ?_⟩
  · rw [List.isPrefixOf_iff_prefix] at h1 ⊢
    exact List.IsPrefix.trans (by decide) h1
  · have e1 : ("terraform-ls_v").length = 14 := rfl
    have e2 : (".zip").length = 4 := rfl
    have e3 : ("terraform-ls.zip").length = 16 := rfl
    rw [e1, e2] at h3
    rw [e3]
    omega

/-- Counterexample for C7: `terraform-ls.zip` does not match the
versioned-zip pattern `terraform-ls_v<version>.zip`, yet `cleanupZips`
deletes it — the code's glob `terraform-ls*.zip` is strictly broader than
the pattern the claim states. -/
theorem cleanupZips_glob_cex :
    (cleanupZips ["terraform-ls.zip"]).1 = ["terraform-ls.zip"] ∧
    matchesVersionedZipName "terraform-ls.zip" = false := by
  exact ⟨by decide, by decide⟩

/-- C7 as amended: `cleanupZips` removes all and only the files of the
install directory matching the glob `terraform-ls*.zip` (prefix
`terraform-ls`, suffix `.zip`) and returns exactly the removed names;
every file of the versioned form `terraform-ls_v<version>.zip` matches the
glob and is therefore removed, but so are other `terraform-ls*.zip` names;
files not matching the glob are all retained. -/
theorem cleanupZips_glob_characterization (files : List String) (f : String) :
    (f ∈ (cleanupZips files).1 ↔ f ∈ files ∧ matchesZipGlob f = true) ∧
    (f ∈ (cleanupZips files).2 ↔ f ∈ files ∧ matchesZipGlob f = false) ∧
    (matchesVersionedZipName f = true → f ∈ files → f ∈ (cleanupZips files).1) := by
  refine ⟨?_, ?_, ?_⟩
  · simp [cleanupZips, List.mem_filter]
  · simp [cleanupZips, List.mem_filter]
  · intro hv hf
    simp only [cleanupZips, List.mem_filter]
    exact ⟨hf, zipGlob_of_versioned f hv⟩

/-- Witness for the amended C7: the versioned artifact of 0.21.0 present in
a directory is among the removed names. -/
theorem cleanupZips_glob_characterization_witness :
    "terraform-ls_v0.21.0.zip" ∈
      (cleanupZips ["terraform-ls_v0.21.0.zip", "readme.txt"]).1 :=
  (cleanupZips_glob_characterization ["terraform-ls_v0.21.0.zip", "readme.txt"]
    "terraform-ls_v0.21.0.zip").2.2 (by decide) (by simp)

/-- C8: the feature registers the bridge command exactly when the server
advertises the experimental `referenceCountCodeLens` capability (absent
capability: no registration, normal return), the single registration binds
the fixed identifier `client.showReferences` to the bridge handler, and
invoking the handler with a position and context performs exactly one
find-references delegation for the active document followed by exactly one
show-references trigger carrying the document URI, the original position
and the locations the delegation returned. -/
theorem showReferences_capability_gate (caps : ServerCaps) (env : RefEnv)
    (pos : SrvPosition) (ctx : RefContext) :
    (caps.referenceCountCodeLens = false → ShowReferencesFeature.init caps = []) ∧
    (caps.referenceCountCodeLens = true →
      ShowReferencesFeature.init caps = [(showReferencesCommandId, showRefsHandler)]) ∧
    showRefsHandler env pos ctx =
      [RefEvent.provideReferences env.activeDoc.uri pos ctx,
       RefEvent.showReferences env.activeDoc.uri pos
         (env.references env.activeDoc pos ctx)] := by
  refine ⟨?_, ?_, rfl⟩
  · intro h
    simp [ShowReferencesFeature.init, h]
  · intro h
    simp [ShowReferencesFeature.init, h]

/-- Witness for C8: with the capability advertised, exactly the bridge
command is registered, and a concrete invocation yields the two-step
trace. -/
theorem showReferences_capability_gate_witness :
    ShowReferencesFeature.init ⟨true⟩ = [(showReferencesCommandId, showRefsHandler)] ∧
    showRefsHandler ⟨⟨"file:///a.tf"⟩, fun _ _ _ => [⟨"file:///b.tf", 1, 2⟩]⟩
        ⟨3, 4⟩ ⟨true⟩ =
      [RefEvent.provideReferences "file:///a.tf" ⟨3, 4⟩ ⟨true⟩,
       RefEvent.showReferences "file:///a.tf" ⟨3, 4⟩ [⟨"file:///b.tf", 1, 2⟩]] := by
  constructor
  · exact (showReferences_capability_gate ⟨true⟩
      ⟨⟨"file:///a.tf"⟩, fun _ _ _ => [⟨"file:///b.tf", 1, 2⟩]⟩ ⟨3, 4⟩ ⟨true⟩).2.1 rfl
  · exact (showReferences_capability_gate ⟨true⟩
      ⟨⟨"file:///a.tf"⟩, fun _ _ _ => [⟨"file:///b.tf", 1, 2⟩]⟩ ⟨3, 4⟩ ⟨true⟩).2.2

/-- C9: with a live client, `stopIfRunning` never throws whatever the
outcomes of the graceful stop and of the forced kill (both failures are
tolerated); it attempts the graceful stop first, then the forced kill of
the server process identifier, and the supervisor ends marked not-running
only after both attempts. -/
theorem stopIfRunning_tolerates_failures (pid : Nat) (sr kr : Except JsErr Unit)
    (isRunning : Bool) :
    stopIfRunning (some ⟨pid, sr, kr⟩) isRunning =
      .ok (false, [StopEvent.gracefulStop, StopEvent.forceKill pid]) :=
  rfl
